import Mathlib

/-!
# Advertisement records of the Linux HCI backend

A shallow embedding of `linux/hci/adv.go`.

* Byte slices (`[]byte`) are lists of naturals, one per `uint8`; a nil slice is the
  empty list.
* `*Advertisement` pointers are addresses into a heap of records, `nil` is `none`.
  Every method takes the world (heap and event trace) and the receiver's address and
  returns its result together with the world after the call.
* `sync.Mutex` is a boolean in the record.  `Lock` on a held mutex never returns in a
  sequential run, `Unlock` on a free mutex is a fatal runtime error: both are `none`.
* Every lock operation and every access to one of the two mutable fields (`sr`, `p`)
  is appended to the trace of the world, in program order.
* Package `linux/adv` (the TLV decoder) is not part of the sources; it is modelled
  from the specification in the namespace `hci.adv`.
-/

namespace hci

/-! ## The TLV decoder (package `adv`) -/

namespace adv

/-- Modelled from the spec: type `adv.Packet` of the missing package `linux/adv`.
Spec 4.1: the decoder parses "a concatenation of up to two raw byte buffers as a
sequence of (length, type, value) advertising-data structures" and extracts fields
lazily, so the packet holds the concatenated bytes. -/
structure Packet where
  b : List Nat
deriving DecidableEq, Repr

/-- Modelled from the spec: `adv.NewRawPacket` of the missing package `linux/adv`,
the spec's `decode(primary, scanResponse)`: the two buffers are concatenated, either may
be empty. -/
def NewRawPacket (primary scanResponse : List Nat) : Packet :=
  ⟨primary ++ scanResponse⟩

/-- Modelled from the spec: one advertising-data structure, its AD type tag and its
value bytes (spec 4.1, "(length, type, value)"). -/
structure ADStructure where
  typ : Nat
  value : List Nat
deriving DecidableEq, Repr

/-- Modelled from the spec: the parsing walk of the missing package `linux/adv`
(spec 4.1): "each structure starts with a one-byte length L (excluding itself), followed
by a one-byte AD type tag, followed by L-1 bytes of value.  If L is 0, or L-1 would read
past the buffer end, parsing stops silently at that point".  The first argument bounds
the number of structures read. -/
def walk : Nat → List Nat → List ADStructure
  | 0, _ => []
  | _ + 1, [] => []
  | fuel + 1, l :: rest =>
    if l = 0 ∨ rest.length < l then []
    else
      match rest with
      | [] => []
      | t :: body => ⟨t, body.take (l - 1)⟩ :: walk fuel (body.drop (l - 1))

/-- Modelled from the spec: the structures of a packet, in the order encountered; every
structure takes at least one byte, so the buffer length bounds the walk. -/
def Packet.structures (p : Packet) : List ADStructure :=
  walk p.b.length p.b

/-! AD type tags (Bluetooth assigned numbers; the spec's scenarios use 0x01 for the
flags, 0x09 for the local name and 0x0A for the tx power level). -/

/-- Modelled from the spec: AD type, incomplete list of 16-bit service UUIDs. -/
def someUUID16 : Nat := 0x02
/-- Modelled from the spec: AD type, complete list of 16-bit service UUIDs. -/
def allUUID16 : Nat := 0x03
/-- Modelled from the spec: AD type, incomplete list of 32-bit service UUIDs. -/
def someUUID32 : Nat := 0x04
/-- Modelled from the spec: AD type, complete list of 32-bit service UUIDs. -/
def allUUID32 : Nat := 0x05
/-- Modelled from the spec: AD type, incomplete list of 128-bit service UUIDs. -/
def someUUID128 : Nat := 0x06
/-- Modelled from the spec: AD type, complete list of 128-bit service UUIDs. -/
def allUUID128 : Nat := 0x07
/-- Modelled from the spec: AD type, shortened local name. -/
def shortName : Nat := 0x08
/-- Modelled from the spec: AD type, complete local name (0x09 in scenario A). -/
def completeName : Nat := 0x09
/-- Modelled from the spec: AD type, tx power level (0x0A in scenario B). -/
def txPower : Nat := 0x0A
/-- Modelled from the spec: AD type, list of 16-bit service solicitation UUIDs. -/
def serviceSol16 : Nat := 0x14
/-- Modelled from the spec: AD type, list of 128-bit service solicitation UUIDs. -/
def serviceSol128 : Nat := 0x15
/-- Modelled from the spec: AD type, service data with a 16-bit UUID. -/
def serviceData16 : Nat := 0x16
/-- Modelled from the spec: AD type, list of 32-bit service solicitation UUIDs. -/
def serviceSol32 : Nat := 0x1F
/-- Modelled from the spec: AD type, manufacturer specific data. -/
def mfgData : Nat := 0xFF

/-- Modelled from the spec: a `ble.UUID`, the bytes of the UUID as they are on the
wire. -/
abbrev UUID := List Nat

/-- Modelled from the spec: a `ble.ServiceData`, the spec's `{uuid, data}`. -/
structure ServiceData where
  uuid : UUID
  data : List Nat
deriving DecidableEq, Repr

/-- Modelled from the spec: the value of the first structure whose tag is one of
`tags`, `none` when there is none (a typed lookup of spec 4.1). -/
def lookup (tags : List Nat) : List ADStructure → Option (List Nat)
  | [] => none
  | s :: ss => if s.typ ∈ tags then some s.value else lookup tags ss

/-- Modelled from the spec: a value cut into UUIDs of `w` bytes; an incomplete last
piece is ignored.  The first argument bounds the number of UUIDs. -/
def uuidList (w : Nat) : Nat → List Nat → List UUID
  | 0, _ => []
  | fuel + 1, d =>
    if w = 0 ∨ d.length < w then [] else d.take w :: uuidList w fuel (d.drop w)

/-- Modelled from the spec: the width in bytes of the UUIDs that a service-UUID
structure lists, `none` for every other AD type. -/
def serviceWidth (t : Nat) : Option Nat :=
  if t = someUUID16 ∨ t = allUUID16 then some 2
  else if t = someUUID32 ∨ t = allUUID32 then some 4
  else if t = someUUID128 ∨ t = allUUID128 then some 16
  else none

/-- Modelled from the spec: the width in bytes of the UUIDs that a service-solicitation
structure lists, `none` for every other AD type. -/
def solicitationWidth (t : Nat) : Option Nat :=
  if t = serviceSol16 then some 2
  else if t = serviceSol32 then some 4
  else if t = serviceSol128 then some 16
  else none

/-- Modelled from the spec: the UUIDs of all structures that `width` recognises,
"aggregated across all matching AD-type variants, insertion order = order
encountered". -/
def collect (width : Nat → Option Nat) : List ADStructure → List UUID
  | [] => []
  | s :: ss =>
    match width s.typ with
    | some w => uuidList w s.value.length s.value ++ collect width ss
    | none => collect width ss

/-- Modelled from the spec: the service-data entries of the structures, in the order
encountered; a structure too short for its UUID is ignored. -/
def collectServiceData : List ADStructure → List ServiceData
  | [] => []
  | s :: ss =>
    if s.typ = serviceData16 ∧ 2 ≤ s.value.length then
      ⟨s.value.take 2, s.value.drop 2⟩ :: collectServiceData ss
    else collectServiceData ss

/-- Modelled from the spec: a byte read as a signed 8-bit integer. -/
def int8 (v : Nat) : Int :=
  if v % 256 < 128 then (v % 256 : Nat) else ((v % 256 : Nat) : Int) - 256

/-- Modelled from the spec: "complete/shortened local name → LocalName() string"; the
string is its bytes, the empty string when the name is absent. -/
def Packet.LocalName (p : Packet) : List Nat :=
  (lookup [shortName, completeName] p.structures).getD []

/-- Modelled from the spec: "manufacturer-specific data → ManufacturerData() bytes",
empty when absent. -/
def Packet.ManufacturerData (p : Packet) : List Nat :=
  (lookup [mfgData] p.structures).getD []

/-- Modelled from the spec: "service data structures → ServiceData() []{uuid, data}". -/
def Packet.ServiceData (p : Packet) : List ServiceData :=
  collectServiceData p.structures

/-- Modelled from the spec: "list of 16/32/128-bit service UUIDs → Services() []UUID",
the decoder's `UUIDs()`. -/
def Packet.UUIDs (p : Packet) : List UUID :=
  collect serviceWidth p.structures

/-- Modelled from the spec: "tx power level (1 signed byte) → TxPowerLevel() (value int,
present bool)"; without a tx-power byte the result is the zero value and `false`. -/
def Packet.TxPower (p : Packet) : Int × Bool :=
  match lookup [txPower] p.structures with
  | some (v :: _) => (int8 v, true)
  | _ => (0, false)

/-- Modelled from the spec: "list of service-solicitation UUIDs → SolicitedServices()
[]UUID", the decoder's `ServiceSol()`. -/
def Packet.ServiceSol (p : Packet) : List UUID :=
  collect solicitationWidth p.structures

/-- The wire form of a list of structures: length byte, tag, value, for each one. -/
def encode : List ADStructure → List Nat
  | [] => []
  | s :: ss => (s.value.length + 1) :: s.typ :: (s.value ++ encode ss)

/-- A buffer at which the walk stops: it is empty, or its length byte is 0, or its
length byte declares more bytes than remain after it. -/
def Truncated : List Nat → Prop
  | [] => True
  | l :: rest => l = 0 ∨ rest.length < l

instance : DecidablePred Truncated := fun b =>
  match b with
  | [] => isTrue trivial
  | l :: rest => inferInstanceAs (Decidable (l = 0 ∨ rest.length < l))

end adv

/-! ## The record (package `hci`) -/

/-- The batch `evt.LEAdvertisingReport`.  Its declaration is in package `evt`, outside
the sources, so the batch is given by its five per-index accessors (spec 6):
`EventType(i)`, `AddressType(i)` (one `uint8` each), `Address(i)` (a `[6]byte`),
`Data(i)` (a `[]byte`) and `RSSI(i)` (an `int8`). -/
structure LEAdvertisingReport where
  EventType : Int → Nat
  AddressType : Int → Nat
  Address : Int → Fin 6 → Nat
  Data : Int → List Nat
  RSSI : Int → Int

/-- A `ble.Addr` as `Addr` builds it: a `net.HardwareAddr`, or a `RandomAddress`
wrapping an address. -/
inductive ble.Addr where
  | HardwareAddr (b : List Nat)
  | RandomAddress (inner : ble.Addr)
deriving DecidableEq, Repr

/-- The bytes of an address, whatever its classification. -/
def ble.Addr.bytes : ble.Addr → List Nat
  | .HardwareAddr b => b
  | .RandomAddress inner => inner.bytes

/-- Whether an address is wrapped as a `RandomAddress`. -/
def ble.Addr.isRandom : ble.Addr → Bool
  | .HardwareAddr _ => false
  | .RandomAddress _ => true

/-- Connectable undirected advertising (ADV_IND). -/
def evtTypAdvInd : Nat := 0x00
/-- Connectable directed advertising (ADV_DIRECT_IND). -/
def evtTypAdvDirectInd : Nat := 0x01
/-- Scannable undirected advertising (ADV_SCAN_IND). -/
def evtTypAdvScanInd : Nat := 0x02
/-- Non connectable undirected advertising (ADV_NONCONN_IND). -/
def evtTypAdvNonconnInd : Nat := 0x03
/-- Scan Response (SCAN_RSP). -/
def evtTypScanRsp : Nat := 0x04

/-- A pointer `*Advertisement`: an address of the heap. -/
abbrev Ptr := Nat

/-- The struct `Advertisement`: the embedded mutex (`true` when held), the batch, the
index, the scan response (`none` for nil) and the cached packet (`none` for nil). -/
structure Advertisement where
  Mutex : Bool
  e : LEAdvertisingReport
  i : Int
  sr : Option Ptr
  p : Option adv.Packet

/-- The struct that `newAdvertisement` allocates: `Advertisement{e: e, i: i}`, every
other field at its zero value. -/
def newAdvertisement (e : LEAdvertisingReport) (i : Int) : Advertisement :=
  { Mutex := false, e := e, i := i, sr := none, p := none }

/-- What a call does to the lock and to the two mutable fields of the record at an
address. -/
inductive Event where
  | lock (a : Ptr)
  | unlock (a : Ptr)
  | readSr (a : Ptr)
  | readP (a : Ptr)
  | writeSr (a : Ptr)
  | writeP (a : Ptr)
deriving DecidableEq, Repr

/-- The world: the records by address and the events so far, oldest first. -/
structure World where
  heap : Ptr → Advertisement
  trace : List Event

/-- The world with the record at `a` replaced. -/
def World.store (w : World) (a : Ptr) (r : Advertisement) : World :=
  { w with heap := fun q => if q = a then r else w.heap q }

/-- The world with one more event. -/
def World.log (w : World) (ev : Event) : World :=
  { w with trace := w.trace ++ [ev] }

namespace Advertisement

/-- `a.Lock()`: takes the mutex; on a held mutex the call does not return. -/
def Lock (w : World) (a : Ptr) : Option World :=
  if (w.heap a).Mutex then none
  else some ((w.store a { w.heap a with Mutex := true }).log (.lock a))

/-- `a.Unlock()`: releases the mutex; on a free mutex it is a fatal error. -/
def Unlock (w : World) (a : Ptr) : Option World :=
  if (w.heap a).Mutex then some ((w.store a { w.heap a with Mutex := false }).log (.unlock a))
  else none

/-- `EventType` (adv.go 143-146). -/
def EventType (w : World) (a : Ptr) : Nat :=
  (w.heap a).e.EventType (w.heap a).i

/-- `AddressType` (adv.go 150-152). -/
def AddressType (w : World) (a : Ptr) : Nat :=
  (w.heap a).e.AddressType (w.heap a).i

/-- `Data` (adv.go 156-158). -/
def Data (w : World) (a : Ptr) : List Nat :=
  (w.heap a).e.Data (w.heap a).i

/-- `ScanResponse` (adv.go 162-167): nil when `a.sr` is nil, else `a.sr.Data()`. -/
def ScanResponse (w : World) (a : Ptr) : List Nat × World :=
  let w1 := w.log (.readSr a)
  match (w1.heap a).sr with
  | none => ([], w1)
  | some q => (Data w1 q, w1.log (.readSr a))

/-- `setScanResponse` (adv.go 43-48). -/
def setScanResponse (w : World) (a : Ptr) (sr : Option Ptr) : Option World := do
  let w1 ← Lock w a
  let w2 := (w1.store a { w1.heap a with sr := sr }).log (.writeSr a)
  let w3 := (w2.store a { w2.heap a with p := none }).log (.writeP a)
  Unlock w3 a

/-- `packets` (adv.go 51-56): the cached packet when there is one, else a new packet
of `a.Data()` and `a.ScanResponse()`; the new packet is returned, `a.p` is not
assigned. -/
def packets (w : World) (a : Ptr) : adv.Packet × World :=
  let w1 := w.log (.readP a)
  match (w1.heap a).p with
  | some pk => (pk, w1.log (.readP a))
  | none =>
    let d := Data w1 a
    let (s, w2) := ScanResponse w1 a
    (adv.NewRawPacket d s, w2)

/-- `LocalName` (adv.go 59-64). -/
def LocalName (w : World) (a : Ptr) : Option (List Nat × World) := do
  let w1 ← Lock w a
  let (pk, w2) := packets w1 a
  let name := pk.LocalName
  let w3 ← Unlock w2 a
  pure (name, w3)

/-- `ManufacturerData` (adv.go 67-72). -/
def ManufacturerData (w : World) (a : Ptr) : Option (List Nat × World) := do
  let w1 ← Lock w a
  let (pk, w2) := packets w1 a
  let data := pk.ManufacturerData
  let w3 ← Unlock w2 a
  pure (data, w3)

/-- `ServiceData` (adv.go 75-80). -/
def ServiceData (w : World) (a : Ptr) : Option (List adv.ServiceData × World) := do
  let w1 ← Lock w a
  let (pk, w2) := packets w1 a
  let data := pk.ServiceData
  let w3 ← Unlock w2 a
  pure (data, w3)

/-- `Services` (adv.go 83-88). -/
def Services (w : World) (a : Ptr) : Option (List adv.UUID × World) := do
  let w1 ← Lock w a
  let (pk, w2) := packets w1 a
  let uuids := pk.UUIDs
  let w3 ← Unlock w2 a
  pure (uuids, w3)

/-- `OverflowService` (adv.go 91-96). -/
def OverflowService (w : World) (a : Ptr) : Option (List adv.UUID × World) := do
  let w1 ← Lock w a
  let (pk, w2) := packets w1 a
  let uuids := pk.UUIDs
  let w3 ← Unlock w2 a
  pure (uuids, w3)

/-- `TxPowerLevel` (adv.go 99-102): no lock is taken, the presence flag of `TxPower()`
is dropped and the result is an `int`. -/
def TxPowerLevel (w : World) (a : Ptr) : Int × World :=
  let (pk, w1) := packets w a
  let pwr := pk.TxPower.1
  (pwr, w1)

/-- `SolicitedService` (adv.go 105-110). -/
def SolicitedService (w : World) (a : Ptr) : Option (List adv.UUID × World) := do
  let w1 ← Lock w a
  let (pk, w2) := packets w1 a
  let sol := pk.ServiceSol
  let w3 ← Unlock w2 a
  pure (sol, w3)

/-- `Connectable` (adv.go 113-118). -/
def Connectable (w : World) (a : Ptr) : Option (Bool × World) := do
  let w1 ← Lock w a
  let connectable : Bool :=
    decide (EventType w1 a = evtTypAdvDirectInd) || decide (EventType w1 a = evtTypAdvInd)
  let w2 ← Unlock w1 a
  pure (connectable, w2)

/-- `RSSI` (adv.go 121-126). -/
def RSSI (w : World) (a : Ptr) : Option (Int × World) := do
  let w1 ← Lock w a
  let rssi := (w1.heap a).e.RSSI (w1.heap a).i
  let w2 ← Unlock w1 a
  pure (rssi, w2)

/-- `Addr` (adv.go 129-139). -/
def Addr (w : World) (a : Ptr) : Option (ble.Addr × World) := do
  let w1 ← Lock w a
  let b := (w1.heap a).e.Address (w1.heap a).i
  let addr := ble.Addr.HardwareAddr [b 5, b 4, b 3, b 2, b 1, b 0]
  if (w1.heap a).e.AddressType (w1.heap a).i = 1 then
    let w2 ← Unlock w1 a
    pure (ble.Addr.RandomAddress addr, w2)
  else
    let w2 ← Unlock w1 a
    pure (addr, w2)

end Advertisement

/-! ## Runs, reachable worlds and lock discipline -/

/-- The packet the spec calls `decode(Data(), ScanResponse())` for the record at `a`. -/
def decoded (w : World) (a : Ptr) : adv.Packet :=
  adv.NewRawPacket (Advertisement.Data w a) (Advertisement.ScanResponse w a).1

/-- The raw data of the record that `sr` points to, empty for nil: `sr.Data()`. -/
def dataOf (w : World) (sr : Option Ptr) : List Nat :=
  match sr with
  | none => []
  | some q => Advertisement.Data w q

/-- A call of one method of `Advertisement` on the record at an address. -/
inductive Call where
  | setScanResponse (a : Ptr) (sr : Option Ptr)
  | LocalName (a : Ptr)
  | ManufacturerData (a : Ptr)
  | ServiceData (a : Ptr)
  | Services (a : Ptr)
  | OverflowService (a : Ptr)
  | TxPowerLevel (a : Ptr)
  | SolicitedService (a : Ptr)
  | Connectable (a : Ptr)
  | RSSI (a : Ptr)
  | Addr (a : Ptr)
  | EventType (a : Ptr)
  | AddressType (a : Ptr)
  | Data (a : Ptr)
  | ScanResponse (a : Ptr)
deriving DecidableEq, Repr

/-- The world after a call, `none` when the call does not return. -/
def step (w : World) : Call → Option World
  | .setScanResponse a sr => Advertisement.setScanResponse w a sr
  | .LocalName a => (Advertisement.LocalName w a).map Prod.snd
  | .ManufacturerData a => (Advertisement.ManufacturerData w a).map Prod.snd
  | .ServiceData a => (Advertisement.ServiceData w a).map Prod.snd
  | .Services a => (Advertisement.Services w a).map Prod.snd
  | .OverflowService a => (Advertisement.OverflowService w a).map Prod.snd
  | .TxPowerLevel a => some (Advertisement.TxPowerLevel w a).2
  | .SolicitedService a => (Advertisement.SolicitedService w a).map Prod.snd
  | .Connectable a => (Advertisement.Connectable w a).map Prod.snd
  | .RSSI a => (Advertisement.RSSI w a).map Prod.snd
  | .Addr a => (Advertisement.Addr w a).map Prod.snd
  | .EventType _ => some w
  | .AddressType _ => some w
  | .Data _ => some w
  | .ScanResponse a => some (Advertisement.ScanResponse w a).2

/-- The world after a sequence of calls, one after the other. -/
def run (w : World) : List Call → Option World
  | [] => some w
  | c :: cs => (step w c).bind fun w1 => run w1 cs

/-- The world in which the record at every address `q` is the one that
`newAdvertisement (E q) (I q)` returns and nothing has been called yet.  A record is
not touched before its first call, so constructing all records up front is the same as
constructing each one when its report arrives. -/
def fresh (E : Ptr → LEAdvertisingReport) (I : Ptr → Int) : World :=
  ⟨fun q => newAdvertisement (E q) (I q), []⟩

/-- The worlds reachable from `newAdvertisement` by a sequence of method calls. -/
def Reachable (w : World) : Prop :=
  ∃ E I cs, run (fresh E I) cs = some w

/-- Replays a trace for the lock of the record at `a`, starting with the lock held or
not: the lock state at the end, or `none` when the trace takes the held lock, releases
the free lock, or touches `sr` or `p` of the record while the lock is free. -/
def replay (a : Ptr) : Bool → List Event → Option Bool
  | held, [] => some held
  | held, .lock b :: t =>
    if b = a then (if held then none else replay a true t) else replay a held t
  | held, .unlock b :: t =>
    if b = a then (if held then replay a false t else none) else replay a held t
  | held, .readSr b :: t => if b = a ∧ held = false then none else replay a held t
  | held, .readP b :: t => if b = a ∧ held = false then none else replay a held t
  | held, .writeSr b :: t => if b = a ∧ held = false then none else replay a held t
  | held, .writeP b :: t => if b = a ∧ held = false then none else replay a held t

/-- A trace is a critical section on the lock of the record at `a`: it starts by
taking the lock, every access to `sr` and `p` of the record happens with the lock held,
and the lock is free at the end. -/
def CriticalSection (a : Ptr) (t : List Event) : Prop :=
  t.head? = some (.lock a) ∧ replay a false t = some false

instance (a : Ptr) (t : List Event) : Decidable (CriticalSection a t) :=
  inferInstanceAs (Decidable (_ ∧ _))

/-! ## Concrete batches and worlds -/

/-- A batch with two reports: report 0 is scenario A of the spec (flags, then the
local name "Hi!?") with the address of scenario C, report 1 is the scan response of
scenario B (tx power 4). -/
def batchA : LEAdvertisingReport :=
  { EventType := fun i => if i = 0 then 0x00 else 0x04
    AddressType := fun _ => 1
    Address := fun _ => ![0x01, 0x02, 0x03, 0x04, 0x05, 0x06]
    Data := fun i => if i = 0 then [0x02, 0x01, 0x06, 0x05, 0x09, 72, 105, 33, 63]
      else [0x02, 0x0A, 0x04]
    RSSI := fun _ => -40 }

/-- Record 0 is report 0 of `batchA`, every other record is report 1; no call yet. -/
def worldA : World :=
  fresh (fun _ => batchA) (fun q => if q = 0 then 0 else 1)

/-- The world `worldA` after `setScanResponse` has paired record 0 with record 1. -/
def pairedA : World :=
  (Advertisement.setScanResponse worldA 0 (some 1)).getD worldA

/-- A batch whose report 0 lists one 16-bit service UUID (complete list) and whose
other reports list two more (incomplete list). -/
def batchC : LEAdvertisingReport :=
  { EventType := fun i => if i = 0 then 0x02 else 0x04
    AddressType := fun _ => 0
    Address := fun _ => ![0x10, 0x20, 0x30, 0x40, 0x50, 0x60]
    Data := fun i => if i = 0 then [0x03, 0x03, 0x0F, 0x18]
      else [0x05, 0x02, 0x0A, 0x18, 0x0D, 0x18]
    RSSI := fun _ => -70 }

/-- Record `q` is report `q` of `batchC`; record 0 has been paired with record 1. -/
def pairedC : World :=
  (Advertisement.setScanResponse (fresh (fun _ => batchC) (fun q => (q : Int))) 0 (some 1)).getD
    (fresh (fun _ => batchC) (fun q => (q : Int)))

/-- A batch whose report 0 has no data, report 1 a tx-power structure of value 0 and
every other report a local name cut off after one of four declared bytes. -/
def batchB : LEAdvertisingReport :=
  { EventType := fun _ => 0x03
    AddressType := fun _ => 0
    Address := fun _ => ![0xA0, 0xA1, 0xA2, 0xA3, 0xA4, 0xA5]
    Data := fun i => if i = 0 then [] else if i = 1 then [0x02, 0x0A, 0x00]
      else [0x05, 0x09, 72]
    RSSI := fun _ => 127 }

/-- Record `q` is report `q` of `batchB`; no call yet. -/
def worldB : World :=
  fresh (fun _ => batchB) (fun q => (q : Int))

/-- A batch whose report 0 is a local-name structure cut off after one of its four
declared value bytes, whose report 1 is a tx-power structure of value 4, and whose other
reports hold that tx-power structure followed by the cut-off local name. -/
def batchD : LEAdvertisingReport :=
  { EventType := fun i => if i = 1 then 0x04 else 0x00
    AddressType := fun _ => 0
    Address := fun _ => ![0xD0, 0xD1, 0xD2, 0xD3, 0xD4, 0xD5]
    Data := fun i => if i = 0 then [0x05, 0x09, 72] else if i = 1 then [0x02, 0x0A, 0x04]
      else [0x02, 0x0A, 0x04, 0x05, 0x09, 72]
    RSSI := fun _ => -55 }

/-- Record `q` is report `q` of `batchD`; no call yet. -/
def worldD : World :=
  fresh (fun _ => batchD) (fun q => (q : Int))

/-- The world `worldD` after `setScanResponse` has paired record 0 with record 1. -/
def pairedD : World :=
  (Advertisement.setScanResponse worldD 0 (some 1)).getD worldD

/-- The world `worldA` in which the cache of record 0 has been filled by hand with a
packet that is not the decoding of its data: a local name "ZZ".  No method call produces
this world; it stands for a cache computed from an earlier pairing. -/
def staleA : World :=
  worldA.store 0 { worldA.heap 0 with p := some (adv.NewRawPacket [0x03, 0x09, 90, 90] []) }

/-- The cache of the record at `q` is absent or holds `decode(Data(), ScanResponse())`
for the scan response attached to the record in this world. -/
def CacheCurrent (w : World) (q : Ptr) : Prop :=
  (w.heap q).p = none ∨ (w.heap q).p = some (decoded w q)

/-! ## Auxiliary definitions for the proofs -/

/-- The common body of the six locking accessors: `a.Lock()`, `a.packets()`,
`a.Unlock()`; each accessor applies one field accessor of the packet in between. -/
def guardedPackets (w : World) (a : Ptr) : Option (adv.Packet × World) := do
  let w1 ← Advertisement.Lock w a
  let (pk, w2) := Advertisement.packets w1 a
  let w3 ← Advertisement.Unlock w2 a
  pure (pk, w3)

/-- Every lock is free and every cache is empty. -/
def Quiet (w : World) : Prop :=
  ∀ q, (w.heap q).Mutex = false ∧ (w.heap q).p = none

end hci

/-! ## Lemmas -/

namespace hci
open Advertisement

namespace adv

/-- The walk reads nothing from a buffer at which it stops. -/
theorem walk_truncated (fuel : Nat) (tail : List Nat) (h : Truncated tail) :
    walk fuel tail = [] := by
  cases fuel with
  | zero => rfl
  | succ n =>
    cases tail with
    | nil => rfl
    | cons l rest =>
      have h' : l = 0 ∨ rest.length < l := h
      simp [walk, h']

/-- With fuel for the whole buffer, the walk over complete structures followed by a
stopping tail returns exactly the complete structures. -/
theorem walk_encode_append (ss : List ADStructure) (tail : List Nat) (h : Truncated tail) :
    ∀ fuel, (encode ss ++ tail).length ≤ fuel → walk fuel (encode ss ++ tail) = ss := by
  induction ss with
  | nil => intro fuel _; simpa [encode] using walk_truncated fuel tail h
  | cons s ss ih =>
    intro fuel hf
    cases fuel with
    | zero => simp [encode] at hf
    | succ n =>
      have hn : (encode ss ++ tail).length ≤ n := by
        simp [encode] at hf ⊢
        omega
      have hnot : ¬ (s.value.length + 1 = 0 ∨
          (s.typ :: (s.value ++ encode ss) ++ tail).length < s.value.length + 1) := by
        simp
      have := ih n hn
      simp only [encode, List.cons_append, walk, hnot, if_false]
      simp [List.append_assoc, this]

/-- The structures of a packet whose concatenated bytes split into complete structures
and a stopping tail. -/
theorem structures_encode_append (primary scanResponse : List Nat) (ss : List ADStructure)
    (tail : List Nat) (hsplit : primary ++ scanResponse = encode ss ++ tail)
    (h : Truncated tail) : (NewRawPacket primary scanResponse).structures = ss := by
  unfold Packet.structures NewRawPacket
  simp only [hsplit]
  exact walk_encode_append ss tail h _ (le_refl _)

end adv

/-- The method `LocalName` is the common locking body followed by the field accessor. -/
theorem LocalName_eq_guarded (w : World) (a : Ptr) :
    LocalName w a = (guardedPackets w a).map fun r => (r.1.LocalName, r.2) := by
  unfold LocalName guardedPackets
  cases Lock w a with
  | none => rfl
  | some w1 =>
    simp only [Option.bind_eq_bind, Option.some_bind, Option.pure_def]
    cases Unlock (packets w1 a).2 a <;> rfl

/-- Locking and unlocking the record at `a` gives back the heap it started from. -/
theorem heap_restore (w : World) (a : Ptr) (hfree : (w.heap a).Mutex = false)
    (r : Advertisement) (e : LEAdvertisingReport) (i : Int) (sr : Option Ptr)
    (p : Option adv.Packet) (he : (w.heap a).e = e) (hi : (w.heap a).i = i)
    (hsr : (w.heap a).sr = sr) (hp : (w.heap a).p = p) :
    (fun q => if q = a then ({ Mutex := false, e := e, i := i, sr := sr, p := p } : Advertisement)
      else if q = a then r else w.heap q) = w.heap := by
  funext x
  by_cases hx : x = a
  · subst hx
    rw [if_pos rfl]
    cases hr : w.heap x
    simp_all
  · simp [hx]

/-- With the lock free, the common locking body returns the packet of `packets`, leaves
the heap as it was and adds a critical section to the trace. -/
theorem guardedPackets_spec (w : World) (a : Ptr) (hfree : (w.heap a).Mutex = false) :
    ∃ t, guardedPackets w a = some ((packets w a).1, ⟨w.heap, w.trace ++ t⟩) ∧
      CriticalSection a t := by
  cases hp : (w.heap a).p with
  | some pk =>
    refine ⟨[.lock a, .readP a, .readP a, .unlock a], ?_, ?_⟩
    · simp [guardedPackets, Lock, Unlock, packets, World.store, World.log, hfree, hp]
      exact heap_restore w a hfree _ _ _ _ _ rfl rfl rfl hp
    · simp [CriticalSection, replay]
  | none =>
    cases hsr : (w.heap a).sr with
    | none =>
      refine ⟨[.lock a, .readP a, .readSr a, .unlock a], ?_, ?_⟩
      · simp [guardedPackets, Lock, Unlock, packets, ScanResponse, Data, World.store, World.log,
          hfree, hp, hsr]
        exact heap_restore w a hfree _ _ _ _ _ rfl rfl hsr hp
      · simp [CriticalSection, replay]
    | some q =>
      refine ⟨[.lock a, .readP a, .readSr a, .readSr a, .unlock a], ?_, ?_⟩
      · by_cases hq : q = a
        · subst hq
          simp [guardedPackets, Lock, Unlock, packets, ScanResponse, Data, World.store,
            World.log, hfree, hp, hsr]
          exact heap_restore w q hfree _ _ _ _ _ rfl rfl hsr hp
        · simp [guardedPackets, Lock, Unlock, packets, ScanResponse, Data, World.store,
            World.log, hfree, hp, hsr, hq]
          exact heap_restore w a hfree _ _ _ _ _ rfl rfl hsr hp
      · simp [CriticalSection, replay]

/-- The method `packets` does not change the heap: it never assigns `a.p`. -/
theorem packets_heap (w : World) (a : Ptr) : (packets w a).2.heap = w.heap := by
  unfold packets ScanResponse
  cases hp : (w.heap a).p with
  | some pk => simp [World.log, hp]
  | none =>
    cases hsr : (w.heap a).sr with
    | none => simp [World.log, hp, hsr]
    | some q => simp [World.log, hp, hsr]

/-- With an empty cache, `packets` decodes `Data()` and `ScanResponse()`. -/
theorem packets_fst_of_none (w : World) (a : Ptr) (hp : (w.heap a).p = none) :
    (packets w a).1 = decoded w a := by
  unfold packets decoded ScanResponse
  cases hsr : (w.heap a).sr with
  | none => simp [World.log, hp, hsr, Data]
  | some q => simp [World.log, hp, hsr, Data]

/-- The value of `ScanResponse()` is the data of the record that `a.sr` points to. -/
theorem scanResponse_fst (w : World) (a : Ptr) :
    (ScanResponse w a).1 = dataOf w (w.heap a).sr := by
  unfold ScanResponse dataOf
  cases hsr : (w.heap a).sr with
  | none => simp [World.log, hsr]
  | some q => simp [World.log, hsr, Data]

/-- The method `ScanResponse` does not change the heap. -/
theorem scanResponse_heap (w : World) (a : Ptr) : (ScanResponse w a).2.heap = w.heap := by
  unfold ScanResponse
  cases hsr : (w.heap a).sr with
  | none => simp [World.log, hsr]
  | some q => simp [World.log, hsr]

/-- With the lock free, `setScanResponse` returns; it sets `a.sr` and `a.p` and nothing
else. -/
theorem setScanResponse_spec (w : World) (a : Ptr) (sr : Option Ptr)
    (hfree : (w.heap a).Mutex = false) :
    setScanResponse w a sr = some
      ⟨fun q => if q = a then { w.heap a with sr := sr, p := none } else w.heap q,
        w.trace ++ [.lock a, .writeSr a, .writeP a, .unlock a]⟩ := by
  simp [setScanResponse, Lock, Unlock, World.store, World.log, hfree]
  funext x
  by_cases hx : x = a
  · subst hx
    simp [hfree]
  · simp [hx]

/-- A call of `setScanResponse` that returns found the lock free. -/
theorem setScanResponse_free (w w' : World) (a : Ptr) (sr : Option Ptr)
    (h : setScanResponse w a sr = some w') : (w.heap a).Mutex = false := by
  cases hm : (w.heap a).Mutex with
  | false => rfl
  | true => simp [setScanResponse, Lock, hm] at h

/-- With the lock free, `Connectable` returns and leaves the heap as it was. -/
theorem Connectable_spec (w : World) (a : Ptr) (hfree : (w.heap a).Mutex = false) :
    Connectable w a = some
      (decide (EventType w a = evtTypAdvDirectInd) || decide (EventType w a = evtTypAdvInd),
        ⟨w.heap, w.trace ++ [.lock a, .unlock a]⟩) := by
  simp [Connectable, Lock, Unlock, World.store, World.log, hfree, EventType]
  exact heap_restore w a hfree _ _ _ _ _ rfl rfl rfl rfl

/-- With the lock free, `RSSI` returns the reading of the batch and leaves the heap as it
was. -/
theorem RSSI_spec (w : World) (a : Ptr) (hfree : (w.heap a).Mutex = false) :
    RSSI w a = some ((w.heap a).e.RSSI (w.heap a).i,
        ⟨w.heap, w.trace ++ [.lock a, .unlock a]⟩) := by
  simp [RSSI, Lock, Unlock, World.store, World.log, hfree]
  exact heap_restore w a hfree _ _ _ _ _ rfl rfl rfl rfl

/-- With the lock free, `Addr` returns the reversed bytes, wrapped when the address type
is 1, and leaves the heap as it was. -/
theorem Addr_spec (w : World) (a : Ptr) (hfree : (w.heap a).Mutex = false) :
    Addr w a = some
      (if AddressType w a = 1 then
          ble.Addr.RandomAddress (ble.Addr.HardwareAddr
            [(w.heap a).e.Address (w.heap a).i 5, (w.heap a).e.Address (w.heap a).i 4,
             (w.heap a).e.Address (w.heap a).i 3, (w.heap a).e.Address (w.heap a).i 2,
             (w.heap a).e.Address (w.heap a).i 1, (w.heap a).e.Address (w.heap a).i 0])
        else
          ble.Addr.HardwareAddr
            [(w.heap a).e.Address (w.heap a).i 5, (w.heap a).e.Address (w.heap a).i 4,
             (w.heap a).e.Address (w.heap a).i 3, (w.heap a).e.Address (w.heap a).i 2,
             (w.heap a).e.Address (w.heap a).i 1, (w.heap a).e.Address (w.heap a).i 0],
        ⟨w.heap, w.trace ++ [.lock a, .unlock a]⟩) := by
  have hh := heap_restore w a hfree { w.heap a with Mutex := true } _ _ _ _ rfl rfl rfl rfl
  by_cases ht : (w.heap a).e.AddressType (w.heap a).i = 1
  · simp [Addr, Lock, Unlock, World.store, World.log, hfree, AddressType, ht]
    exact hh
  · simp [Addr, Lock, Unlock, World.store, World.log, hfree, AddressType, ht]
    exact hh

/-- The method `ManufacturerData` is the common locking body followed by the field
accessor. -/
theorem ManufacturerData_eq_guarded (w : World) (a : Ptr) :
    ManufacturerData w a = (guardedPackets w a).map fun r => (r.1.ManufacturerData, r.2) := by
  unfold ManufacturerData guardedPackets
  cases Lock w a with
  | none => rfl
  | some w1 =>
    simp only [Option.bind_eq_bind, Option.some_bind, Option.pure_def]
    cases Unlock (packets w1 a).2 a <;> rfl

/-- The method `ServiceData` is the common locking body followed by the field accessor. -/
theorem ServiceData_eq_guarded (w : World) (a : Ptr) :
    ServiceData w a = (guardedPackets w a).map fun r => (r.1.ServiceData, r.2) := by
  unfold ServiceData guardedPackets
  cases Lock w a with
  | none => rfl
  | some w1 =>
    simp only [Option.bind_eq_bind, Option.some_bind, Option.pure_def]
    cases Unlock (packets w1 a).2 a <;> rfl

/-- The method `Services` is the common locking body followed by `UUIDs`. -/
theorem Services_eq_guarded (w : World) (a : Ptr) :
    Services w a = (guardedPackets w a).map fun r => (r.1.UUIDs, r.2) := by
  unfold Services guardedPackets
  cases Lock w a with
  | none => rfl
  | some w1 =>
    simp only [Option.bind_eq_bind, Option.some_bind, Option.pure_def]
    cases Unlock (packets w1 a).2 a <;> rfl

/-- The method `OverflowService` is the common locking body followed by `UUIDs`. -/
theorem OverflowService_eq_guarded (w : World) (a : Ptr) :
    OverflowService w a = (guardedPackets w a).map fun r => (r.1.UUIDs, r.2) := by
  unfold OverflowService guardedPackets
  cases Lock w a with
  | none => rfl
  | some w1 =>
    simp only [Option.bind_eq_bind, Option.some_bind, Option.pure_def]
    cases Unlock (packets w1 a).2 a <;> rfl

/-- The method `SolicitedService` is the common locking body followed by `ServiceSol`. -/
theorem SolicitedService_eq_guarded (w : World) (a : Ptr) :
    SolicitedService w a = (guardedPackets w a).map fun r => (r.1.ServiceSol, r.2) := by
  unfold SolicitedService guardedPackets
  cases Lock w a with
  | none => rfl
  | some w1 =>
    simp only [Option.bind_eq_bind, Option.some_bind, Option.pure_def]
    cases Unlock (packets w1 a).2 a <;> rfl

/-- In a quiet world the common locking body decodes the current pairing. -/
theorem guarded_quiet (w : World) (a : Ptr) (hq : Quiet w) :
    ∃ t, guardedPackets w a = some (decoded w a, ⟨w.heap, w.trace ++ t⟩) ∧
      CriticalSection a t := by
  obtain ⟨t, h1, h2⟩ := guardedPackets_spec w a (hq a).1
  rw [packets_fst_of_none w a (hq a).2] at h1
  exact ⟨t, h1, h2⟩

/-- Quietness depends on the heap only. -/
theorem quiet_of_heap_eq (w w' : World) (hq : Quiet w) (h : w'.heap = w.heap) : Quiet w' := by
  intro q
  rw [h]
  exact hq q

/-- A call in a quiet world leaves the heap as it was, or is a `setScanResponse`. -/
theorem step_heap (w w' : World) (c : Call) (hq : Quiet w) (h : step w c = some w') :
    w'.heap = w.heap ∨ ∃ a sr,
      w'.heap = fun q => if q = a then { w.heap a with sr := sr, p := none } else w.heap q := by
  cases c with
  | setScanResponse a sr =>
    right
    refine ⟨a, sr, ?_⟩
    simp only [step, setScanResponse_spec w a sr (hq a).1, Option.some.injEq] at h
    rw [← h]
  | LocalName a =>
    left
    obtain ⟨t, h1, _⟩ := guarded_quiet w a hq
    simp only [step, LocalName_eq_guarded, h1, Option.map_some', Option.some.injEq] at h
    rw [← h]
  | ManufacturerData a =>
    left
    obtain ⟨t, h1, _⟩ := guarded_quiet w a hq
    simp only [step, ManufacturerData_eq_guarded, h1, Option.map_some', Option.some.injEq] at h
    rw [← h]
  | ServiceData a =>
    left
    obtain ⟨t, h1, _⟩ := guarded_quiet w a hq
    simp only [step, ServiceData_eq_guarded, h1, Option.map_some', Option.some.injEq] at h
    rw [← h]
  | Services a =>
    left
    obtain ⟨t, h1, _⟩ := guarded_quiet w a hq
    simp only [step, Services_eq_guarded, h1, Option.map_some', Option.some.injEq] at h
    rw [← h]
  | OverflowService a =>
    left
    obtain ⟨t, h1, _⟩ := guarded_quiet w a hq
    simp only [step, OverflowService_eq_guarded, h1, Option.map_some', Option.some.injEq] at h
    rw [← h]
  | SolicitedService a =>
    left
    obtain ⟨t, h1, _⟩ := guarded_quiet w a hq
    simp only [step, SolicitedService_eq_guarded, h1, Option.map_some', Option.some.injEq] at h
    rw [← h]
  | TxPowerLevel a =>
    left
    simp only [step, Option.some.injEq] at h
    rw [← h]
    exact packets_heap w a
  | Connectable a =>
    left
    simp only [step, Connectable_spec w a (hq a).1, Option.map_some', Option.some.injEq] at h
    rw [← h]
  | RSSI a =>
    left
    simp only [step, RSSI_spec w a (hq a).1, Option.map_some', Option.some.injEq] at h
    rw [← h]
  | Addr a =>
    left
    simp only [step, Addr_spec w a (hq a).1, Option.map_some', Option.some.injEq] at h
    rw [← h]
  | EventType a =>
    left
    simp only [step, Option.some.injEq] at h
    rw [← h]
  | AddressType a =>
    left
    simp only [step, Option.some.injEq] at h
    rw [← h]
  | Data a =>
    left
    simp only [step, Option.some.injEq] at h
    rw [← h]
  | ScanResponse a =>
    left
    simp only [step, Option.some.injEq] at h
    rw [← h]
    exact scanResponse_heap w a

/-- Every call keeps the world quiet. -/
theorem step_quiet (w w' : World) (c : Call) (hq : Quiet w) (h : step w c = some w') :
    Quiet w' := by
  rcases step_heap w w' c hq h with h1 | ⟨a, sr, h1⟩
  · exact quiet_of_heap_eq w w' hq h1
  · intro q
    rw [h1]
    by_cases hx : q = a
    · subst hx
      simp [(hq q).1]
    · simp [hx, (hq q).1, (hq q).2]

/-- Every sequence of calls keeps the world quiet. -/
theorem run_quiet (cs : List Call) : ∀ (w w' : World), Quiet w → run w cs = some w' →
    Quiet w' := by
  induction cs with
  | nil =>
    intro w w' hq h
    simp only [run, Option.some.injEq] at h
    rw [← h]
    exact hq
  | cons c cs ih =>
    intro w w' hq h
    simp only [run] at h
    cases hs : step w c with
    | none => simp [hs] at h
    | some w1 =>
      simp only [hs, Option.some_bind] at h
      exact ih w1 w' (step_quiet w w1 c hq hs) h

/-- The world of new records is quiet. -/
theorem fresh_quiet (E : Ptr → LEAdvertisingReport) (I : Ptr → Int) : Quiet (fresh E I) := by
  intro q
  simp [fresh, newAdvertisement]

/-- Every reachable world is quiet: all locks free, all caches empty. -/
theorem reachable_quiet (w : World) (h : Reachable w) : Quiet w := by
  obtain ⟨E, I, cs, hrun⟩ := h
  exact run_quiet cs _ w (fresh_quiet E I) hrun

/-- The world of new records is reachable. -/
theorem reachable_fresh (E : Ptr → LEAdvertisingReport) (I : Ptr → Int) :
    Reachable (fresh E I) :=
  ⟨E, I, [], rfl⟩

/-- Running two sequences of calls one after the other. -/
theorem run_append (cs ds : List Call) : ∀ (w : World),
    run w (cs ++ ds) = (run w cs).bind fun w1 => run w1 ds := by
  induction cs with
  | nil => intro w; simp [run]
  | cons c cs ih =>
    intro w
    simp only [List.cons_append, run]
    cases step w c with
    | none => simp
    | some w1 => simp [ih w1]

/-- A call from a reachable world leads to a reachable world. -/
theorem reachable_step (w w' : World) (c : Call) (h : Reachable w) (hs : step w c = some w') :
    Reachable w' := by
  obtain ⟨E, I, cs, hrun⟩ := h
  refine ⟨E, I, cs ++ [c], ?_⟩
  rw [run_append, hrun]
  simp [run, hs]

/-- In a quiet world `LocalName` returns the local name of the current pairing. -/
theorem LocalName_quiet (w : World) (a : Ptr) (hq : Quiet w) :
    ∃ t, LocalName w a = some ((decoded w a).LocalName, ⟨w.heap, w.trace ++ t⟩) ∧
      CriticalSection a t := by
  obtain ⟨t, h1, h2⟩ := guarded_quiet w a hq
  exact ⟨t, by rw [LocalName_eq_guarded, h1]; rfl, h2⟩

/-- In a quiet world `ManufacturerData` returns the manufacturer data of the current
pairing. -/
theorem ManufacturerData_quiet (w : World) (a : Ptr) (hq : Quiet w) :
    ∃ t, ManufacturerData w a = some ((decoded w a).ManufacturerData, ⟨w.heap, w.trace ++ t⟩) ∧
      CriticalSection a t := by
  obtain ⟨t, h1, h2⟩ := guarded_quiet w a hq
  exact ⟨t, by rw [ManufacturerData_eq_guarded, h1]; rfl, h2⟩

/-- In a quiet world `ServiceData` returns the service data of the current pairing. -/
theorem ServiceData_quiet (w : World) (a : Ptr) (hq : Quiet w) :
    ∃ t, ServiceData w a = some ((decoded w a).ServiceData, ⟨w.heap, w.trace ++ t⟩) ∧
      CriticalSection a t := by
  obtain ⟨t, h1, h2⟩ := guarded_quiet w a hq
  exact ⟨t, by rw [ServiceData_eq_guarded, h1]; rfl, h2⟩

/-- In a quiet world `Services` returns the UUIDs of the current pairing. -/
theorem Services_quiet (w : World) (a : Ptr) (hq : Quiet w) :
    ∃ t, Services w a = some ((decoded w a).UUIDs, ⟨w.heap, w.trace ++ t⟩) ∧
      CriticalSection a t := by
  obtain ⟨t, h1, h2⟩ := guarded_quiet w a hq
  exact ⟨t, by rw [Services_eq_guarded, h1]; rfl, h2⟩

/-- In a quiet world `OverflowService` returns the UUIDs of the current pairing. -/
theorem OverflowService_quiet (w : World) (a : Ptr) (hq : Quiet w) :
    ∃ t, OverflowService w a = some ((decoded w a).UUIDs, ⟨w.heap, w.trace ++ t⟩) ∧
      CriticalSection a t := by
  obtain ⟨t, h1, h2⟩ := guarded_quiet w a hq
  exact ⟨t, by rw [OverflowService_eq_guarded, h1]; rfl, h2⟩

/-- In a quiet world `SolicitedService` returns the solicited UUIDs of the current
pairing. -/
theorem SolicitedService_quiet (w : World) (a : Ptr) (hq : Quiet w) :
    ∃ t, SolicitedService w a = some ((decoded w a).ServiceSol, ⟨w.heap, w.trace ++ t⟩) ∧
      CriticalSection a t := by
  obtain ⟨t, h1, h2⟩ := guarded_quiet w a hq
  exact ⟨t, by rw [SolicitedService_eq_guarded, h1]; rfl, h2⟩

/-- In a quiet world `TxPowerLevel` returns the tx-power value of the current pairing. -/
theorem TxPowerLevel_quiet (w : World) (a : Ptr) (hq : Quiet w) :
    (TxPowerLevel w a).1 = (decoded w a).TxPower.1 := by
  unfold TxPowerLevel
  simp only
  rw [packets_fst_of_none w a (hq a).2]

/-- The packet of the record at `a` once `a.sr` is `sr`: its own data and the data of
`sr`. -/
theorem decoded_after_set (w : World) (a : Ptr) (sr : Option Ptr) (t : List Event) :
    decoded ⟨fun q => if q = a then { w.heap a with sr := sr, p := none } else w.heap q, t⟩ a
      = adv.NewRawPacket (Data w a) (dataOf w sr) := by
  unfold decoded
  rw [scanResponse_fst]
  cases sr with
  | none => simp [dataOf, Data]
  | some q =>
    by_cases hq : q = a
    · subst hq
      simp [dataOf, Data]
    · simp [dataOf, Data, hq]

/-- Every buffer is a sequence of complete structures followed by a tail at which the
walk stops. -/
theorem adv.split_exists : ∀ (n : Nat) (b : List Nat), b.length ≤ n →
    ∃ ss tail, b = adv.encode ss ++ tail ∧ adv.Truncated tail := by
  intro n
  induction n with
  | zero =>
    intro b hb
    have : b = [] := List.length_eq_zero.mp (Nat.le_zero.mp hb)
    subst this
    exact ⟨[], [], rfl, trivial⟩
  | succ n ih =>
    intro b hb
    by_cases htr : adv.Truncated b
    · exact ⟨[], b, rfl, htr⟩
    · match b, hb, htr with
      | [], _, htr => exact absurd trivial htr
      | [l], _, htr =>
        exfalso
        apply htr
        show l = 0 ∨ ([] : List Nat).length < l
        simp only [List.length_nil]
        omega
      | l :: t :: body, hb, htr =>
        have hcond : ¬ (l = 0 ∨ (t :: body).length < l) := htr
        simp only [List.length_cons] at hcond hb
        have hlen : (body.take (l - 1)).length = l - 1 := by
          rw [List.length_take]
          omega
        obtain ⟨ss, tail, hsplit, htail⟩ := ih (body.drop (l - 1)) (by
          rw [List.length_drop]
          omega)
        refine ⟨⟨t, body.take (l - 1)⟩ :: ss, tail, ?_, htail⟩
        have hl : (body.take (l - 1)).length + 1 = l := by omega
        simp only [adv.encode, hl, List.cons_append, List.append_assoc, ← hsplit,
          List.take_append_drop]

/-- The buffer length is enough fuel for the walk: more fuel reads the same structures. -/
theorem adv.walk_enough_fuel (b : List Nat) (fuel : Nat) (h : b.length ≤ fuel) :
    adv.walk fuel b = adv.walk b.length b := by
  obtain ⟨ss, tail, hsplit, htail⟩ := adv.split_exists _ b (le_refl _)
  rw [hsplit, adv.walk_encode_append ss tail htail fuel (by rw [← hsplit]; exact h),
    adv.walk_encode_append ss tail htail _ (le_refl _)]

/-- The value length is enough fuel for cutting a value into UUIDs. -/
theorem adv.uuidList_enough_fuel (w : Nat) : ∀ (n m : Nat) (d : List Nat),
    d.length ≤ n → d.length ≤ m → adv.uuidList w n d = adv.uuidList w m d := by
  intro n
  induction n with
  | zero =>
    intro m d hn _
    have hd : d = [] := List.length_eq_zero.mp (Nat.le_zero.mp hn)
    subst hd
    cases m with
    | zero => rfl
    | succ m =>
      have : w = 0 ∨ 0 < w := by omega
      simp [adv.uuidList, this]
  | succ n ih =>
    intro m d hn hm
    by_cases hc : w = 0 ∨ d.length < w
    · cases m with
      | zero => simp [adv.uuidList, hc]
      | succ m => simp [adv.uuidList, hc]
    · cases m with
      | zero =>
        exfalso
        apply hc
        omega
      | succ m =>
        have hrec := ih m (d.drop w) (by rw [List.length_drop]; omega)
          (by rw [List.length_drop]; omega)
        simp only [adv.uuidList, hc, if_false, hrec]

/-- Scenario A of the spec: flags, then the local name "Hi!?"; no tx power. -/
theorem adv.scenario_A :
    (adv.NewRawPacket [0x02, 0x01, 0x06, 0x05, 0x09, 72, 105, 33, 63] []).LocalName =
      [72, 105, 33, 63] ∧
    (adv.NewRawPacket [0x02, 0x01, 0x06, 0x05, 0x09, 72, 105, 33, 63] []).TxPower.2 = false :=
  ⟨rfl, rfl⟩

/-- Scenario B of the spec: empty primary data, tx power 4 in the scan response. -/
theorem adv.scenario_B :
    (adv.NewRawPacket [] [0x02, 0x0A, 0x04]).TxPower = (4, true) ∧
    (adv.NewRawPacket [] [0x02, 0x0A, 0x04]).LocalName = [] :=
  ⟨rfl, rfl⟩

/-- With the lock free, each of the six locking accessors returns, leaves the heap as it
was and adds a critical section on the lock of its record to the trace. -/
theorem locking_accessors_are_critical_sections (w : World) (a : Ptr)
    (hfree : (w.heap a).Mutex = false) :
    ∃ t, CriticalSection a t ∧
      (LocalName w a).map Prod.snd = some ⟨w.heap, w.trace ++ t⟩ ∧
      (ManufacturerData w a).map Prod.snd = some ⟨w.heap, w.trace ++ t⟩ ∧
      (ServiceData w a).map Prod.snd = some ⟨w.heap, w.trace ++ t⟩ ∧
      (Services w a).map Prod.snd = some ⟨w.heap, w.trace ++ t⟩ ∧
      (OverflowService w a).map Prod.snd = some ⟨w.heap, w.trace ++ t⟩ ∧
      (SolicitedService w a).map Prod.snd = some ⟨w.heap, w.trace ++ t⟩ := by
  obtain ⟨t, h1, h2⟩ := guardedPackets_spec w a hfree
  refine ⟨t, h2, ?_, ?_, ?_, ?_, ?_, ?_⟩
  · rw [LocalName_eq_guarded, h1]; rfl
  · rw [ManufacturerData_eq_guarded, h1]; rfl
  · rw [ServiceData_eq_guarded, h1]; rfl
  · rw [Services_eq_guarded, h1]; rfl
  · rw [OverflowService_eq_guarded, h1]; rfl
  · rw [SolicitedService_eq_guarded, h1]; rfl

/-- With the lock free and the cache empty, the common locking body decodes the
current pairing, whatever the other records hold. -/
theorem guarded_of_empty_cache (w : World) (a : Ptr) (hfree : (w.heap a).Mutex = false)
    (hp : (w.heap a).p = none) :
    ∃ t, guardedPackets w a = some (decoded w a, ⟨w.heap, w.trace ++ t⟩) := by
  obtain ⟨t, h1, _⟩ := guardedPackets_spec w a hfree
  rw [packets_fst_of_none w a hp] at h1
  exact ⟨t, h1⟩

/-- Setting `sr` and `p` of the record at `a` leaves the decoding of every other record
as it was: batches and indices do not change. -/
theorem decoded_of_other (w : World) (a q : Ptr) (sr : Option Ptr) (t : List Event)
    (hq : q ≠ a) :
    decoded ⟨fun x => if x = a then { w.heap a with sr := sr, p := none } else w.heap x, t⟩ q
      = decoded w q := by
  unfold decoded
  rw [scanResponse_fst, scanResponse_fst]
  simp only [hq, if_false]
  cases (w.heap q).sr with
  | none => simp [dataOf, Data, hq]
  | some r =>
    by_cases hr : r = a
    · subst hr
      simp [dataOf, Data, hq]
    · simp [dataOf, Data, hq, hr]

/-! ## The claims -/

/-- Claim C1: for a record whose report has wire address bytes b0..b5 and address type
t, `Addr()` returns, when called with the lock free, an address whose bytes are
b5,b4,b3,b2,b1,b0; it is that `net.HardwareAddr` wrapped as `RandomAddress` exactly when
t = 1 and the plain `net.HardwareAddr` exactly when t is any other value. -/
theorem C1_Addr_reverses_wire_order (w : World) (a : Ptr) (b0 b1 b2 b3 b4 b5 t : Nat)
    (hfree : (w.heap a).Mutex = false)
    (hb : (w.heap a).e.Address (w.heap a).i = ![b0, b1, b2, b3, b4, b5])
    (ht : (w.heap a).e.AddressType (w.heap a).i = t) :
    ∃ r w', Advertisement.Addr w a = some (r, w') ∧
      r.bytes = [b5, b4, b3, b2, b1, b0] ∧
      (r.isRandom = true ↔ t = 1) ∧
      (r = ble.Addr.RandomAddress (ble.Addr.HardwareAddr [b5, b4, b3, b2, b1, b0]) ↔ t = 1) ∧
      (r = ble.Addr.HardwareAddr [b5, b4, b3, b2, b1, b0] ↔ t ≠ 1) := by
  have hs := Addr_spec w a hfree
  have e0 : (w.heap a).e.Address (w.heap a).i 0 = b0 := by rw [hb]; rfl
  have e1 : (w.heap a).e.Address (w.heap a).i 1 = b1 := by rw [hb]; rfl
  have e2 : (w.heap a).e.Address (w.heap a).i 2 = b2 := by rw [hb]; rfl
  have e3 : (w.heap a).e.Address (w.heap a).i 3 = b3 := by rw [hb]; rfl
  have e4 : (w.heap a).e.Address (w.heap a).i 4 = b4 := by rw [hb]; rfl
  have e5 : (w.heap a).e.Address (w.heap a).i 5 = b5 := by rw [hb]; rfl
  simp only [Advertisement.AddressType, ht, e0, e1, e2, e3, e4, e5] at hs
  by_cases h1 : t = 1
  · simp only [h1, if_true] at hs
    refine ⟨_, _, hs, ?_, ?_, ?_, ?_⟩ <;> simp [ble.Addr.bytes, ble.Addr.isRandom, h1]
  · simp only [h1, if_false] at hs
    refine ⟨_, _, hs, ?_, ?_, ?_, ?_⟩ <;> simp [ble.Addr.bytes, ble.Addr.isRandom, h1]

/-- Witness for C1 on record 0 of `worldA`: scenario C of the spec, address type 1. -/
theorem C1_witness :
    (worldA.heap 0).Mutex = false ∧
    (worldA.heap 0).e.Address (worldA.heap 0).i = ![0x01, 0x02, 0x03, 0x04, 0x05, 0x06] ∧
    (worldA.heap 0).e.AddressType (worldA.heap 0).i = 1 ∧
    ∃ r w', Advertisement.Addr worldA 0 = some (r, w') ∧
      r.bytes = [0x06, 0x05, 0x04, 0x03, 0x02, 0x01] ∧
      (r.isRandom = true ↔ 1 = 1) ∧
      (r = ble.Addr.RandomAddress
        (ble.Addr.HardwareAddr [0x06, 0x05, 0x04, 0x03, 0x02, 0x01]) ↔ 1 = 1) ∧
      (r = ble.Addr.HardwareAddr [0x06, 0x05, 0x04, 0x03, 0x02, 0x01] ↔ 1 ≠ 1) :=
  ⟨rfl, rfl, rfl, C1_Addr_reverses_wire_order worldA 0 1 2 3 4 5 6 1 rfl rfl rfl⟩

/-- Claim C2: for a record whose report has event type t, any value at all,
`Connectable()` returns, when called with the lock free, true exactly when t is 0x00
(ADV_IND) or 0x01 (ADV_DIRECT_IND), and it returns the same after any scan response
(or nil) has been attached. -/
theorem C2_Connectable_iff_connectable_event (w : World) (a : Ptr) (t : Nat)
    (hfree : (w.heap a).Mutex = false)
    (ht : (w.heap a).e.EventType (w.heap a).i = t) :
    ∃ r w', Advertisement.Connectable w a = some (r, w') ∧
      (r = true ↔ t = evtTypAdvInd ∨ t = evtTypAdvDirectInd) ∧
      (r = true ↔ t = 0x00 ∨ t = 0x01) ∧
      ∀ sr, ∃ w1 w2, Advertisement.setScanResponse w a sr = some w1 ∧
        Advertisement.Connectable w1 a = some (r, w2) := by
  refine ⟨_, _, Connectable_spec w a hfree, ?_, ?_, ?_⟩
  · simp [Advertisement.EventType, ht, evtTypAdvInd, evtTypAdvDirectInd, or_comm]
  · simp [Advertisement.EventType, ht, evtTypAdvInd, evtTypAdvDirectInd, or_comm]
  · intro sr
    have hc := Connectable_spec
      ⟨fun q => if q = a then { w.heap a with sr := sr, p := none } else w.heap q,
        w.trace ++ [.lock a, .writeSr a, .writeP a, .unlock a]⟩ a (by simp [hfree])
    have hev : Advertisement.EventType
        ⟨fun q => if q = a then { w.heap a with sr := sr, p := none } else w.heap q,
          w.trace ++ [.lock a, .writeSr a, .writeP a, .unlock a]⟩ a
        = Advertisement.EventType w a := by
      simp [Advertisement.EventType]
    rw [hev] at hc
    exact ⟨_, _, setScanResponse_spec w a sr hfree, hc⟩

/-- Witness for C2 on record 1 of `worldA`, a scan response (event type 0x04): not
connectable. -/
theorem C2_witness :
    (worldA.heap 1).Mutex = false ∧ (worldA.heap 1).e.EventType (worldA.heap 1).i = 0x04 ∧
    ∃ r w', Advertisement.Connectable worldA 1 = some (r, w') ∧
      (r = true ↔ 0x04 = evtTypAdvInd ∨ 0x04 = evtTypAdvDirectInd) ∧
      (r = true ↔ 0x04 = 0x00 ∨ 0x04 = 0x01) ∧
      ∀ sr, ∃ w1 w2, Advertisement.setScanResponse worldA 1 sr = some w1 ∧
        Advertisement.Connectable w1 1 = some (r, w2) :=
  ⟨rfl, rfl, C2_Connectable_iff_connectable_event worldA 1 0x04 rfl rfl⟩

/-- Claim C3: pairing invalidates the cache.  In every world in which the lock of `a`
is free, whatever the cache of `a` holds (empty, current, or a packet of an earlier
pairing) and whatever is attached, `a.setScanResponse(sr)` returns and leaves `a.sr = sr`
and the cache of `a` empty; every record whose cache was absent or current before still
has it absent or current afterwards; and each of the seven decoded-field accessors then
returns the field of `decode(Data(), sr.Data())`, never a value of the earlier cache.
In every world reachable from `newAdvertisement` by method calls, the cache of every
record is absent or equal to `decode(Data(), ScanResponse())` for the scan response
attached at that moment, every accessor returns the field of that packet, and
`setScanResponse` leads to a reachable world. -/
theorem C3_pairing_invalidates_cache (w : World) (a : Ptr) (sr : Option Ptr)
    (hfree : (w.heap a).Mutex = false) :
    (∃ w1, Advertisement.setScanResponse w a sr = some w1 ∧
      (w1.heap a).sr = sr ∧ (w1.heap a).p = none ∧ CacheCurrent w1 a ∧
      (∀ q, CacheCurrent w q → CacheCurrent w1 q) ∧
      (Reachable w → Reachable w1) ∧
      decoded w1 a = adv.NewRawPacket (Advertisement.Data w a) (dataOf w sr) ∧
      (Advertisement.LocalName w1 a).map Prod.fst =
        some (adv.NewRawPacket (Advertisement.Data w a) (dataOf w sr)).LocalName ∧
      (Advertisement.ManufacturerData w1 a).map Prod.fst =
        some (adv.NewRawPacket (Advertisement.Data w a) (dataOf w sr)).ManufacturerData ∧
      (Advertisement.ServiceData w1 a).map Prod.fst =
        some (adv.NewRawPacket (Advertisement.Data w a) (dataOf w sr)).ServiceData ∧
      (Advertisement.Services w1 a).map Prod.fst =
        some (adv.NewRawPacket (Advertisement.Data w a) (dataOf w sr)).UUIDs ∧
      (Advertisement.OverflowService w1 a).map Prod.fst =
        some (adv.NewRawPacket (Advertisement.Data w a) (dataOf w sr)).UUIDs ∧
      (Advertisement.SolicitedService w1 a).map Prod.fst =
        some (adv.NewRawPacket (Advertisement.Data w a) (dataOf w sr)).ServiceSol ∧
      (Advertisement.TxPowerLevel w1 a).1 =
        (adv.NewRawPacket (Advertisement.Data w a) (dataOf w sr)).TxPower.1) ∧
    (∀ w0, Reachable w0 → ∀ q, CacheCurrent w0 q ∧
      (Advertisement.LocalName w0 q).map Prod.fst =
        some (decoded w0 q).LocalName ∧
      (Advertisement.ManufacturerData w0 q).map Prod.fst =
        some (decoded w0 q).ManufacturerData ∧
      (Advertisement.ServiceData w0 q).map Prod.fst =
        some (decoded w0 q).ServiceData ∧
      (Advertisement.Services w0 q).map Prod.fst =
        some (decoded w0 q).UUIDs ∧
      (Advertisement.OverflowService w0 q).map Prod.fst =
        some (decoded w0 q).UUIDs ∧
      (Advertisement.SolicitedService w0 q).map Prod.fst =
        some (decoded w0 q).ServiceSol ∧
      (Advertisement.TxPowerLevel w0 q).1 =
        (decoded w0 q).TxPower.1) := by
  have hs := setScanResponse_spec w a sr hfree
  have hd := decoded_after_set w a sr (w.trace ++ [.lock a, .writeSr a, .writeP a, .unlock a])
  have hfree1 : ((fun q => if q = a then ({ w.heap a with sr := sr, p := none } : Advertisement)
      else w.heap q) a).Mutex = false := by simp [hfree]
  have hp1 : ((fun q => if q = a then ({ w.heap a with sr := sr, p := none } : Advertisement)
      else w.heap q) a).p = none := by simp
  obtain ⟨_, g⟩ := guarded_of_empty_cache
    ⟨fun q => if q = a then { w.heap a with sr := sr, p := none } else w.heap q,
      w.trace ++ [.lock a, .writeSr a, .writeP a, .unlock a]⟩ a hfree1 hp1
  rw [hd] at g
  have b7 := packets_fst_of_none
    ⟨fun q => if q = a then { w.heap a with sr := sr, p := none } else w.heap q,
      w.trace ++ [.lock a, .writeSr a, .writeP a, .unlock a]⟩ a hp1
  rw [hd] at b7
  refine ⟨⟨_, hs, by simp, hp1, Or.inl hp1, ?_, ?_, hd,
    by rw [LocalName_eq_guarded, g]; rfl, by rw [ManufacturerData_eq_guarded, g]; rfl,
    by rw [ServiceData_eq_guarded, g]; rfl, by rw [Services_eq_guarded, g]; rfl,
    by rw [OverflowService_eq_guarded, g]; rfl, by rw [SolicitedService_eq_guarded, g]; rfl,
    ?_⟩, ?_⟩
  · intro q hq
    by_cases hqa : q = a
    · subst hqa
      exact Or.inl hp1
    · unfold CacheCurrent at hq ⊢
      rw [decoded_of_other w a q sr _ hqa]
      simpa [hqa] using hq
  · intro hr
    exact reachable_step w _ (.setScanResponse a sr) hr hs
  · unfold Advertisement.TxPowerLevel
    simp only
    rw [b7]
  · intro w0 h0 q
    have hq := reachable_quiet w0 h0
    obtain ⟨_, a1, _⟩ := LocalName_quiet w0 q hq
    obtain ⟨_, a2, _⟩ := ManufacturerData_quiet w0 q hq
    obtain ⟨_, a3, _⟩ := ServiceData_quiet w0 q hq
    obtain ⟨_, a4, _⟩ := Services_quiet w0 q hq
    obtain ⟨_, a5, _⟩ := OverflowService_quiet w0 q hq
    obtain ⟨_, a6, _⟩ := SolicitedService_quiet w0 q hq
    exact ⟨Or.inl (hq q).2, by rw [a1]; rfl, by rw [a2]; rfl, by rw [a3]; rfl,
      by rw [a4]; rfl, by rw [a5]; rfl, by rw [a6]; rfl, TxPowerLevel_quiet w0 q hq⟩

/-- Witness for C3 on record 0 of `staleA`, whose lock is free and whose cache holds a
packet of no pairing: before the call the accessors read the stale local name "ZZ";
`setScanResponse` with record 1 empties the cache, and the accessors read the local name
of the record's own data and the tx power 4 of the scan response. -/
theorem C3_witness :
    (staleA.heap 0).Mutex = false ∧
    (staleA.heap 0).p = some (adv.NewRawPacket [0x03, 0x09, 90, 90] []) ∧
    (Advertisement.LocalName staleA 0).map Prod.fst = some [90, 90] ∧
    ∃ w1, Advertisement.setScanResponse staleA 0 (some 1) = some w1 ∧
      (w1.heap 0).sr = some 1 ∧ (w1.heap 0).p = none ∧ CacheCurrent w1 0 ∧
      (∀ q, CacheCurrent staleA q → CacheCurrent w1 q) ∧
      (Reachable staleA → Reachable w1) ∧
      decoded w1 0 =
        adv.NewRawPacket [0x02, 0x01, 0x06, 0x05, 0x09, 72, 105, 33, 63] [0x02, 0x0A, 0x04] ∧
      (Advertisement.LocalName w1 0).map Prod.fst = some [72, 105, 33, 63] ∧
      (Advertisement.ManufacturerData w1 0).map Prod.fst = some [] ∧
      (Advertisement.ServiceData w1 0).map Prod.fst = some [] ∧
      (Advertisement.Services w1 0).map Prod.fst = some [] ∧
      (Advertisement.OverflowService w1 0).map Prod.fst = some [] ∧
      (Advertisement.SolicitedService w1 0).map Prod.fst = some [] ∧
      (Advertisement.TxPowerLevel w1 0).1 = 4 :=
  ⟨rfl, rfl, rfl, (C3_pairing_invalidates_cache staleA 0 (some 1) rfl).1⟩

/-- Claim C4 (the code does not memoize): `packets` never assigns `a.p`, so a
decoded-field accessor leaves the heap as it was.  On record 0 of `worldA`, whose cache
is empty, `LocalName()` returns "Hi!?" and the cache is still empty afterwards, not
`decode(Data(), ScanResponse())`; a second `LocalName()` finds the cache empty again
and reads the scan-response reference to build a second packet. -/
theorem C4_cache_is_never_filled :
    (∀ w a, (Advertisement.packets w a).2.heap = w.heap) ∧
    (worldA.heap 0).p = none ∧
    (Advertisement.LocalName worldA 0).map (fun r => (r.1, (r.2.heap 0).p)) =
      some ([72, 105, 33, 63], none) ∧
    (Advertisement.LocalName worldA 0).map (fun r => decide ((r.2.heap 0).p =
      some (adv.NewRawPacket (Advertisement.Data r.2 0) (Advertisement.ScanResponse r.2 0).1)))
      = some false ∧
    ((Advertisement.LocalName worldA 0).bind fun r => Advertisement.LocalName r.2 0).map
      (fun r => (r.1, r.2.trace)) =
      some ([72, 105, 33, 63],
        [Event.lock 0, Event.readP 0, Event.readSr 0, Event.unlock 0,
         Event.lock 0, Event.readP 0, Event.readSr 0, Event.unlock 0]) :=
  ⟨packets_heap, rfl, rfl, rfl, rfl⟩

/-- Claim C5 fails as stated: records 0 and 1 of `worldB` decode to a packet without a
tx-power structure and to a packet whose tx-power structure holds the value 0; the
decoder tells them apart by its presence flag, `TxPowerLevel()` returns 0 for both. -/
theorem C5_absent_equals_present_zero :
    (decoded worldB 0).TxPower = (0, false) ∧
    (decoded worldB 1).TxPower = (0, true) ∧
    (Advertisement.TxPowerLevel worldB 0).1 = 0 ∧
    (Advertisement.TxPowerLevel worldB 1).1 = 0 ∧
    (Advertisement.TxPowerLevel worldB 0).1 = (Advertisement.TxPowerLevel worldB 1).1 :=
  ⟨rfl, rfl, rfl, rfl, rfl⟩

/-- Claim C5, amended: in every reachable world `TxPowerLevel()` returns one integer,
the value component of the decoder's `TxPower()` for `decode(Data(), ScanResponse())`,
and no presence flag: it is the tx-power value when the structure is present and 0
when it is absent, the same result as for a present tx power of value 0. -/
theorem C5_TxPowerLevel_returns_value_only (w : World) (h : Reachable w) (a : Ptr) :
    (Advertisement.TxPowerLevel w a).1 = (decoded w a).TxPower.1 ∧
    (Advertisement.TxPowerLevel w a).1 =
      (if (decoded w a).TxPower.2 = true then (decoded w a).TxPower.1 else 0) := by
  have hv := TxPowerLevel_quiet w a (reachable_quiet w h)
  refine ⟨hv, ?_⟩
  rw [hv]
  unfold adv.Packet.TxPower
  split <;> simp

/-- Witness for C5 on record 0 of `pairedA`, whose scan response holds tx power 4. -/
theorem C5_witness :
    Reachable pairedA ∧
    ((Advertisement.TxPowerLevel pairedA 0).1 = 4 ∧
    (Advertisement.TxPowerLevel pairedA 0).1 =
      (if (decoded pairedA 0).TxPower.2 = true then (decoded pairedA 0).TxPower.1 else 0)) :=
  ⟨⟨fun _ => batchA, fun q => if q = 0 then 0 else 1, [Call.setScanResponse 0 (some 1)], rfl⟩,
    C5_TxPowerLevel_returns_value_only pairedA
      ⟨fun _ => batchA, fun q => if q = 0 then 0 else 1, [Call.setScanResponse 0 (some 1)], rfl⟩
      0⟩

/-- Claim C6: `Data()` of a record is the raw data of the batch at the record's own
index, before and after `setScanResponse(sr)`; `ScanResponse()` is empty when no scan
response is attached and otherwise the raw data of the attached record at that
record's own batch and index, so after `setScanResponse(sr)` it is `sr.Data()` (empty
for nil). -/
theorem C6_Data_and_ScanResponse (w w' : World) (a : Ptr) (sr : Option Ptr)
    (h : Advertisement.setScanResponse w a sr = some w') :
    Advertisement.Data w a = (w.heap a).e.Data (w.heap a).i ∧
    Advertisement.Data w' a = (w.heap a).e.Data (w.heap a).i ∧
    (Advertisement.ScanResponse w a).1 =
      (match (w.heap a).sr with
        | none => []
        | some q => (w.heap q).e.Data (w.heap q).i) ∧
    (Advertisement.ScanResponse w' a).1 =
      (match sr with
        | none => []
        | some q => (w.heap q).e.Data (w.heap q).i) ∧
    (Advertisement.ScanResponse w' a).1 = dataOf w' sr := by
  have hfree := setScanResponse_free w w' a sr h
  rw [setScanResponse_spec w a sr hfree, Option.some.injEq] at h
  subst h
  refine ⟨rfl, by simp [Advertisement.Data], ?_, ?_, ?_⟩
  · rw [scanResponse_fst]
    cases (w.heap a).sr <;> rfl
  · rw [scanResponse_fst]
    cases sr with
    | none => simp [dataOf]
    | some q =>
      by_cases hq : q = a
      · subst hq
        simp [dataOf, Advertisement.Data]
      · simp [dataOf, Advertisement.Data, hq]
  · rw [scanResponse_fst]
    simp

/-- Witness for C6: pairing record 0 of `worldA` with record 1. -/
theorem C6_witness :
    Advertisement.setScanResponse worldA 0 (some 1) = some pairedA ∧
    (Advertisement.Data worldA 0 = [0x02, 0x01, 0x06, 0x05, 0x09, 72, 105, 33, 63] ∧
    Advertisement.Data pairedA 0 = [0x02, 0x01, 0x06, 0x05, 0x09, 72, 105, 33, 63] ∧
    (Advertisement.ScanResponse worldA 0).1 = [] ∧
    (Advertisement.ScanResponse pairedA 0).1 = [0x02, 0x0A, 0x04] ∧
    (Advertisement.ScanResponse pairedA 0).1 = dataOf pairedA (some 1)) :=
  ⟨rfl, C6_Data_and_ScanResponse worldA pairedA 0 (some 1) rfl⟩

/-- Claim C7: in every reachable world, paired or not, `OverflowService()` and
`Services()` of a record return the same list, the decoder's `UUIDs()` of
`decode(Data(), ScanResponse())`. -/
theorem C7_OverflowService_eq_Services (w : World) (h : Reachable w) (a : Ptr) :
    Advertisement.OverflowService w a = Advertisement.Services w a ∧
    (Advertisement.Services w a).map Prod.fst = some (decoded w a).UUIDs ∧
    (Advertisement.OverflowService w a).map Prod.fst = some (decoded w a).UUIDs := by
  have hq := reachable_quiet w h
  obtain ⟨_, a4, _⟩ := Services_quiet w a hq
  refine ⟨rfl, by rw [a4]; rfl, ?_⟩
  have : Advertisement.OverflowService w a = Advertisement.Services w a := rfl
  rw [this, a4]
  rfl

/-- Witness for C7 on record 0 of `pairedC`: one UUID of its own data, two of its scan
response. -/
theorem C7_witness :
    Reachable pairedC ∧
    (Advertisement.OverflowService pairedC 0 = Advertisement.Services pairedC 0 ∧
    (Advertisement.Services pairedC 0).map Prod.fst =
      some [[0x0F, 0x18], [0x0A, 0x18], [0x0D, 0x18]] ∧
    (Advertisement.OverflowService pairedC 0).map Prod.fst =
      some [[0x0F, 0x18], [0x0A, 0x18], [0x0D, 0x18]]) :=
  ⟨⟨fun _ => batchC, fun q => (q : Int), [Call.setScanResponse 0 (some 1)], rfl⟩,
    C7_OverflowService_eq_Services pairedC
      ⟨fun _ => batchC, fun q => (q : Int), [Call.setScanResponse 0 (some 1)], rfl⟩ 0⟩

/-- Claim C8 (the code breaks the lock discipline in `TxPowerLevel`): in every world
`TxPowerLevel()` starts by reading the cache with no lock event before it, and its trace
is not a critical section on the record's lock; on record 0 of `worldA` its whole trace
is a read of `p` and a read of `sr`, where the sibling `LocalName()` locks first and
unlocks last. -/
theorem C8_TxPowerLevel_reads_without_lock :
    (∀ w a, ∃ t, (Advertisement.TxPowerLevel w a).2.trace = w.trace ++ t ∧
      t.head? = some (Event.readP a) ∧ replay a false t = none ∧ ¬ CriticalSection a t) ∧
    (Advertisement.TxPowerLevel worldA 0).2.trace = [Event.readP 0, Event.readSr 0] ∧
    (Advertisement.LocalName worldA 0).map (fun r => r.2.trace) =
      some [Event.lock 0, Event.readP 0, Event.readSr 0, Event.unlock 0] := by
  refine ⟨?_, rfl, rfl⟩
  intro w a
  cases hp : (w.heap a).p with
  | some pk =>
    refine ⟨[.readP a, .readP a], ?_, rfl, ?_, ?_⟩
    · simp [Advertisement.TxPowerLevel, Advertisement.packets, World.log, hp]
    · simp [replay]
    · simp [CriticalSection]
  | none =>
    cases hsr : (w.heap a).sr with
    | none =>
      refine ⟨[.readP a, .readSr a], ?_, rfl, ?_, ?_⟩
      · simp [Advertisement.TxPowerLevel, Advertisement.packets, Advertisement.ScanResponse,
          World.log, hp, hsr]
      · simp [replay]
      · simp [CriticalSection]
    | some q =>
      refine ⟨[.readP a, .readSr a, .readSr a], ?_, rfl, ?_, ?_⟩
      · simp [Advertisement.TxPowerLevel, Advertisement.packets, Advertisement.ScanResponse,
          World.log, hp, hsr]
      · simp [replay]
      · simp [CriticalSection]

/-- Claim C9: `a.setScanResponse(sr)` changes only the scan-response reference and the
cache of `a`: the heap afterwards is the heap before with `a.sr = sr` and `a.p = nil`,
so the batch and the index of `a` are unchanged, `Addr()`, `RSSI()`, `EventType()`,
`AddressType()`, `Connectable()` and `Data()` of `a` return what they returned before,
every record other than `a` is the same record as before, and the batch, index and
data of the attached record are unchanged. -/
theorem C9_setScanResponse_frame (w w' : World) (a : Ptr) (sr : Option Ptr)
    (h : Advertisement.setScanResponse w a sr = some w') :
    (w'.heap = fun q => if q = a then { w.heap a with sr := sr, p := none } else w.heap q) ∧
    (w'.heap a).e = (w.heap a).e ∧ (w'.heap a).i = (w.heap a).i ∧
    (∃ r, (Advertisement.Addr w a).map Prod.fst = some r ∧
      (Advertisement.Addr w' a).map Prod.fst = some r) ∧
    (∃ r, (Advertisement.RSSI w a).map Prod.fst = some r ∧
      (Advertisement.RSSI w' a).map Prod.fst = some r) ∧
    (∃ r, (Advertisement.Connectable w a).map Prod.fst = some r ∧
      (Advertisement.Connectable w' a).map Prod.fst = some r) ∧
    Advertisement.EventType w' a = Advertisement.EventType w a ∧
    Advertisement.AddressType w' a = Advertisement.AddressType w a ∧
    Advertisement.Data w' a = Advertisement.Data w a ∧
    (∀ q, q ≠ a → w'.heap q = w.heap q) ∧
    (∀ q, sr = some q → (w'.heap q).e = (w.heap q).e ∧ (w'.heap q).i = (w.heap q).i ∧
      Advertisement.Data w' q = Advertisement.Data w q) := by
  have hfree := setScanResponse_free w w' a sr h
  rw [setScanResponse_spec w a sr hfree, Option.some.injEq] at h
  subst h
  have hfree' : ((fun q => if q = a then ({ w.heap a with sr := sr, p := none } : Advertisement)
      else w.heap q) a).Mutex = false := by simp [hfree]
  refine ⟨rfl, by simp, by simp, ⟨_, by rw [Addr_spec w a hfree]; rfl, ?_⟩,
    ⟨_, by rw [RSSI_spec w a hfree]; rfl, ?_⟩,
    ⟨_, by rw [Connectable_spec w a hfree]; rfl, ?_⟩,
    by simp [Advertisement.EventType], by simp [Advertisement.AddressType],
    by simp [Advertisement.Data], ?_, ?_⟩
  · rw [Addr_spec _ a hfree']
    simp [Advertisement.AddressType]
  · rw [RSSI_spec _ a hfree']
    simp
  · rw [Connectable_spec _ a hfree']
    simp [Advertisement.EventType]
  · intro q hq
    simp [hq]
  · intro q _
    by_cases hq : q = a
    · subst hq
      simp [Advertisement.Data]
    · simp [Advertisement.Data, hq]

/-- Witness for C9: pairing record 0 of `worldA` with record 1. -/
theorem C9_witness :
    Advertisement.setScanResponse worldA 0 (some 1) = some pairedA ∧
    ((pairedA.heap = fun q =>
      if q = 0 then { worldA.heap 0 with sr := some 1, p := none } else worldA.heap q) ∧
    (pairedA.heap 0).e = (worldA.heap 0).e ∧ (pairedA.heap 0).i = (worldA.heap 0).i ∧
    (∃ r, (Advertisement.Addr worldA 0).map Prod.fst = some r ∧
      (Advertisement.Addr pairedA 0).map Prod.fst = some r) ∧
    (∃ r, (Advertisement.RSSI worldA 0).map Prod.fst = some r ∧
      (Advertisement.RSSI pairedA 0).map Prod.fst = some r) ∧
    (∃ r, (Advertisement.Connectable worldA 0).map Prod.fst = some r ∧
      (Advertisement.Connectable pairedA 0).map Prod.fst = some r) ∧
    Advertisement.EventType pairedA 0 = Advertisement.EventType worldA 0 ∧
    Advertisement.AddressType pairedA 0 = Advertisement.AddressType worldA 0 ∧
    Advertisement.Data pairedA 0 = Advertisement.Data worldA 0 ∧
    (∀ q, q ≠ 0 → pairedA.heap q = worldA.heap q) ∧
    (∀ q, some 1 = some q → (pairedA.heap q).e = (worldA.heap q).e ∧
      (pairedA.heap q).i = (worldA.heap q).i ∧
      Advertisement.Data pairedA q = Advertisement.Data worldA q)) :=
  ⟨rfl, C9_setScanResponse_frame worldA pairedA 0 (some 1) rfl⟩

/-- Claim C10 fails as stated: the primary buffer `[0x05, 0x09, 'H']` ends in the middle
of its only structure, a local name declaring four value bytes, and the scan response
`[0x02, 0x0A, 0x04]` has no local name; decoded alone, either buffer reports the local
name absent, but the decoder walks the concatenation, completes the cut-off structure
with the three scan-response bytes and reports a local name of four bytes, also through
`LocalName()` of the record paired with that scan response. -/
theorem C10_cut_off_primary_takes_scan_response_bytes :
    adv.Truncated [0x05, 0x09, 72] ∧
    (adv.NewRawPacket [0x05, 0x09, 72] []).LocalName = [] ∧
    (adv.NewRawPacket [] [0x02, 0x0A, 0x04]).LocalName = [] ∧
    (adv.NewRawPacket [0x05, 0x09, 72] [0x02, 0x0A, 0x04]).LocalName = [72, 0x02, 0x0A, 0x04] ∧
    Advertisement.Data pairedD 0 = [0x05, 0x09, 72] ∧
    (Advertisement.ScanResponse pairedD 0).1 = [0x02, 0x0A, 0x04] ∧
    (Advertisement.LocalName pairedD 0).map Prod.fst = some [72, 0x02, 0x0A, 0x04] :=
  ⟨by decide, rfl, rfl, rfl, rfl, rfl, rfl⟩

/-- Claim C10, amended: decoding is total, and truncation is that of the concatenated
buffer.  For a record in a reachable world with raw data `primary` and scan-response
data `scanResponse`, write `primary ++ scanResponse` as the complete structures `ss`
followed by a tail at which the walk stops (empty, length byte 0, or a declared length
exceeding the bytes that remain in the concatenation); every pair of buffers has such a
split.  Then the decoded structures are exactly `ss`, every field of the packet is the
field of the packet of `ss` alone (nothing at or after the truncation point
contributes), and each of the seven accessors of the record returns that field.  For two
empty buffers every field is absent. -/
theorem C10_truncation_safety (w : World) (h : Reachable w) (a : Ptr)
    (primary scanResponse : List Nat) (ss : List adv.ADStructure) (tail : List Nat)
    (hdata : Advertisement.Data w a = primary)
    (hsr : (Advertisement.ScanResponse w a).1 = scanResponse)
    (hsplit : primary ++ scanResponse = adv.encode ss ++ tail)
    (htail : adv.Truncated tail) :
    (∀ p s : List Nat, ∃ ss' tail', p ++ s = adv.encode ss' ++ tail' ∧ adv.Truncated tail') ∧
    (adv.NewRawPacket primary scanResponse).structures = ss ∧
    (adv.NewRawPacket (adv.encode ss) []).structures = ss ∧
    (adv.NewRawPacket primary scanResponse).LocalName =
      (adv.NewRawPacket (adv.encode ss) []).LocalName ∧
    (adv.NewRawPacket primary scanResponse).ManufacturerData =
      (adv.NewRawPacket (adv.encode ss) []).ManufacturerData ∧
    (adv.NewRawPacket primary scanResponse).ServiceData =
      (adv.NewRawPacket (adv.encode ss) []).ServiceData ∧
    (adv.NewRawPacket primary scanResponse).UUIDs = (adv.NewRawPacket (adv.encode ss) []).UUIDs ∧
    (adv.NewRawPacket primary scanResponse).TxPower =
      (adv.NewRawPacket (adv.encode ss) []).TxPower ∧
    (adv.NewRawPacket primary scanResponse).ServiceSol =
      (adv.NewRawPacket (adv.encode ss) []).ServiceSol ∧
    (Advertisement.LocalName w a).map Prod.fst =
      some (adv.NewRawPacket (adv.encode ss) []).LocalName ∧
    (Advertisement.ManufacturerData w a).map Prod.fst =
      some (adv.NewRawPacket (adv.encode ss) []).ManufacturerData ∧
    (Advertisement.ServiceData w a).map Prod.fst =
      some (adv.NewRawPacket (adv.encode ss) []).ServiceData ∧
    (Advertisement.Services w a).map Prod.fst = some (adv.NewRawPacket (adv.encode ss) []).UUIDs ∧
    (Advertisement.OverflowService w a).map Prod.fst =
      some (adv.NewRawPacket (adv.encode ss) []).UUIDs ∧
    (Advertisement.SolicitedService w a).map Prod.fst =
      some (adv.NewRawPacket (adv.encode ss) []).ServiceSol ∧
    (Advertisement.TxPowerLevel w a).1 = (adv.NewRawPacket (adv.encode ss) []).TxPower.1 ∧
    (adv.NewRawPacket [] []).structures = [] ∧
    (adv.NewRawPacket [] []).LocalName = [] ∧
    (adv.NewRawPacket [] []).ManufacturerData = [] ∧
    (adv.NewRawPacket [] []).ServiceData = [] ∧
    (adv.NewRawPacket [] []).UUIDs = [] ∧
    (adv.NewRawPacket [] []).TxPower = (0, false) ∧
    (adv.NewRawPacket [] []).ServiceSol = [] := by
  have hq := reachable_quiet w h
  have hP := adv.structures_encode_append primary scanResponse ss tail hsplit htail
  have hG := adv.structures_encode_append (adv.encode ss) [] ss [] (by simp) trivial
  have hdec : decoded w a = adv.NewRawPacket primary scanResponse := by
    unfold decoded
    rw [hdata, hsr]
  obtain ⟨_, a1, _⟩ := LocalName_quiet w a hq
  obtain ⟨_, a2, _⟩ := ManufacturerData_quiet w a hq
  obtain ⟨_, a3, _⟩ := ServiceData_quiet w a hq
  obtain ⟨_, a4, _⟩ := Services_quiet w a hq
  obtain ⟨_, a5, _⟩ := OverflowService_quiet w a hq
  obtain ⟨_, a6, _⟩ := SolicitedService_quiet w a hq
  have a7 := TxPowerLevel_quiet w a hq
  rw [hdec] at a1 a2 a3 a4 a5 a6 a7
  have f1 : (adv.NewRawPacket primary scanResponse).LocalName =
      (adv.NewRawPacket (adv.encode ss) []).LocalName := by
    simp only [adv.Packet.LocalName, hP, hG]
  have f2 : (adv.NewRawPacket primary scanResponse).ManufacturerData =
      (adv.NewRawPacket (adv.encode ss) []).ManufacturerData := by
    simp only [adv.Packet.ManufacturerData, hP, hG]
  have f3 : (adv.NewRawPacket primary scanResponse).ServiceData =
      (adv.NewRawPacket (adv.encode ss) []).ServiceData := by
    simp only [adv.Packet.ServiceData, hP, hG]
  have f4 : (adv.NewRawPacket primary scanResponse).UUIDs =
      (adv.NewRawPacket (adv.encode ss) []).UUIDs := by
    simp only [adv.Packet.UUIDs, hP, hG]
  have f5 : (adv.NewRawPacket primary scanResponse).TxPower =
      (adv.NewRawPacket (adv.encode ss) []).TxPower := by
    simp only [adv.Packet.TxPower, hP, hG]
  have f6 : (adv.NewRawPacket primary scanResponse).ServiceSol =
      (adv.NewRawPacket (adv.encode ss) []).ServiceSol := by
    simp only [adv.Packet.ServiceSol, hP, hG]
  refine ⟨fun p s => adv.split_exists _ (p ++ s) (le_refl _), hP, hG, f1, f2, f3, f4, f5, f6,
    by rw [a1, f1]; rfl, by rw [a2, f2]; rfl, by rw [a3, f3]; rfl, by rw [a4, f4]; rfl,
    by rw [a5, f4]; rfl, by rw [a6, f6]; rfl, by rw [a7, f5], rfl, rfl, rfl, rfl, rfl, rfl, rfl⟩

/-- Witness for C10 on record 2 of `worldD`: a tx-power structure, then a local name
cut off after one byte; the tx power is read, the local name is absent. -/
theorem C10_witness :
    Reachable worldD ∧
    Advertisement.Data worldD 2 = [0x02, 0x0A, 0x04, 0x05, 0x09, 72] ∧
    (Advertisement.ScanResponse worldD 2).1 = [] ∧
    [0x02, 0x0A, 0x04, 0x05, 0x09, 72] ++ [] =
      adv.encode [⟨0x0A, [0x04]⟩] ++ [0x05, 0x09, 72] ∧
    adv.Truncated [0x05, 0x09, 72] ∧
    (Advertisement.TxPowerLevel worldD 2).1 = 4 ∧
    (Advertisement.LocalName worldD 2).map Prod.fst = some [] :=
  have hw := C10_truncation_safety worldD (reachable_fresh _ _) 2
    [0x02, 0x0A, 0x04, 0x05, 0x09, 72] [] [⟨0x0A, [0x04]⟩] [0x05, 0x09, 72] rfl rfl rfl
    (by decide)
  ⟨reachable_fresh _ _, rfl, rfl, rfl, by decide, hw.2.2.2.2.2.2.2.2.2.2.2.2.2.2.2.1,
    hw.2.2.2.2.2.2.2.2.2.1⟩


end hci
